import Mathlib

/-!
# Verification of the crypto-trailing-dca trading bot

A shallow embedding, in Lean 4, of the parts of the `crypto-trailing-dca`
repository that its specification makes claims about:

* `src/main.py` — DCA-ladder parsing (`parse_dca_config`), the default
  four-tier ladder (`generate_default_dca`), the interactive stop-distance
  prompt (`prompt_stop_distance`) and the administrative lock reset
  (`reset_instance_lock`);
* `src/ui/screens/setup.py` — the stop-distance validation performed by the
  setup screen's `validate_and_start`;
* `src/ui/widgets/threshold_tracker.py` — `mark_threshold_hit`;
* `src/create-db.py` — the schema bootstrap;
* `src/coinbasepro.py` — `get_order` and `get_balance`;
* the trailing-stop tracker and the engine's threshold-hit discipline, which
  live in `trail.py`; that file is not among the available sources, so those
  two components are modelled from the specification text (their definitions
  say so explicitly).

Python floats are modelled as exact rationals (`ℚ`); at each concrete input
appearing in a claim the IEEE-754 double computation was checked by hand to
round to exactly the rational value used here.  Python strings that undergo
character-level processing are modelled as `List Char` (`PyStr`), with the
handful of `str` methods the source uses (`strip`, `split`, `replace`,
`startswith`, `in`, `lower`) defined below; strings used only as opaque
tokens (symbols, column names, timestamps) stay `String`.  Fatal exits
(`sys.exit(1)`) are modelled as a distinguished error result, and interactive
loops as functions over the finite list of inputs the user types.
-/

/-! ## Python string primitives on character lists -/

/-- A Python string under character-level processing. -/
abbrev PyStr := List Char

/-- Python `str.strip()`: drop leading and trailing whitespace. -/
def pyStrip (s : PyStr) : PyStr :=
  ((s.dropWhile Char.isWhitespace).reverse.dropWhile Char.isWhitespace).reverse

/-- Python `str.split(sep)` for a one-character separator: split at every
occurrence, keeping empty fields (so `"".split(sep) == [""]`). -/
def pySplit (sep : Char) : PyStr → List PyStr
  | [] => [[]]
  | c :: cs =>
    if c = sep then [] :: pySplit sep cs
    else
      match pySplit sep cs with
      | [] => [[c]]
      | f :: r => (c :: f) :: r

/-- Python `str.replace(c, '')` for a one-character pattern: remove every
occurrence of `c`. -/
def pyRemoveAll (c : Char) (s : PyStr) : PyStr :=
  s.filter (fun d => d ≠ c)

/-- Python `str.startswith(c)` for a one-character pattern. -/
def pyStartsWith (c : Char) : PyStr → Bool
  | [] => false
  | d :: _ => d = c

/-- Python `c in s` membership test for a character. -/
def pyContains (s : PyStr) (c : Char) : Bool :=
  s.any (fun d => d = c)

/-- Python `str.lower()` (ASCII fragment, which is all the source compares). -/
def pyLower (s : PyStr) : PyStr :=
  s.map Char.toLower

/-! ## Modelling Python's `float()` on tokens

`float()` is split into a purely syntactic stage (`parseNum?`, which never
touches `ℚ` and therefore evaluates by `decide`) and a semantic stage
(`NumParts.val`).  `parseFloat? = (parseNum? ·).map NumParts.val` is the
composition the embedded code uses. -/

/-- Numeric value of a run of decimal digits (most significant first). -/
def digitsVal (cs : List Char) : Nat :=
  cs.foldl (fun acc c => acc * 10 + (c.toNat - 48)) 0

/-- Syntactic pieces of an accepted float literal: sign, integer-part digits,
fractional-part digits, decimal exponent. -/
structure NumParts where
  sign : Int
  ip : List Char
  fp : List Char
  exp : Int
deriving DecidableEq, Repr

/-- Leading sign of a numeric literal, with the remaining characters. -/
def splitNumSign : List Char → Int × List Char
  | '+' :: cs => (1, cs)
  | '-' :: cs => (-1, cs)
  | cs => (1, cs)

/-- Exponent suffix of a float literal: either nothing, or `e`/`E` followed by
an optional sign and a nonempty run of digits consuming the whole rest. -/
def parseExpPart : List Char → Option Int
  | [] => some 0
  | c :: cs =>
    if c = 'e' ∨ c = 'E' then
      let scs : Int × List Char :=
        match cs with
        | '+' :: t => (1, t)
        | '-' :: t => (-1, t)
        | t => (1, t)
      if scs.2 ≠ [] ∧ scs.2.all Char.isDigit then some (scs.1 * digitsVal scs.2)
      else none
    else none

/-- Syntactic stage of Python's `float()` builtin: surrounding whitespace, an
optional sign, decimal digits with an optional fractional part (at least one
digit overall) and an optional exponent.  (`inf`, `nan` and digit-group
underscores are outside the model.) -/
def parseNum? (s : PyStr) : Option NumParts :=
  let cs := pyStrip s
  let sgcs := splitNumSign cs
  let ip := sgcs.2.takeWhile Char.isDigit
  let rest := sgcs.2.dropWhile Char.isDigit
  match rest with
  | '.' :: rest2 =>
    let fp := rest2.takeWhile Char.isDigit
    let rest3 := rest2.dropWhile Char.isDigit
    if ip.isEmpty ∧ fp.isEmpty then none
    else (parseExpPart rest3).map (fun e => ⟨sgcs.1, ip, fp, e⟩)
  | _ =>
    if ip.isEmpty then none
    else (parseExpPart rest).map (fun e => ⟨sgcs.1, ip, [], e⟩)

/-- Exact rational value denoted by an accepted float literal. -/
def NumParts.val (n : NumParts) : ℚ :=
  (n.sign : ℚ) * ((digitsVal n.ip : ℚ) + (digitsVal n.fp : ℚ) / 10 ^ n.fp.length) *
    (10 : ℚ) ^ n.exp

/-- Python's `float()` on a token, as an exact rational. -/
def parseFloat? (s : PyStr) : Option ℚ :=
  (parseNum? s).map NumParts.val

/-! ## `main.py`: `parse_dca_config` (lines 9–66) -/

/-- Does a price token use the percentage form?  Source line 43:
`price_str.startswith('+') and '%' in price_str`. -/
def isPercentForm (p : PyStr) : Bool :=
  pyStartsWith '+' p && pyContains p '%'

/-- The token fed to `float` in the percentage branch.  Source line 45:
`price_str.replace('+', '').replace('%', '').strip()`. -/
def percentBody (p : PyStr) : PyStr :=
  pyStrip (pyRemoveAll '%' (pyRemoveAll '+' p))

/-- One iteration of the parsing loop of `parse_dca_config` (main.py lines
31–61) on an already-stripped, nonempty pair.  `none` models the `sys.exit(1)`
paths: a `split(':')` that does not yield exactly two parts, an unparseable
number, a non-positive amount, or a non-positive absolute price. -/
def parsePair (current_price : ℚ) (pair : PyStr) : Option (ℚ × ℚ) :=
  match pySplit ':' pair with
  | [price_s, amount_s] =>
    let price_str := pyStrip price_s
    let amount_str := pyStrip amount_s
    match parseFloat? amount_str with
    | none => none
    | some amount =>
      if amount ≤ 0 then none
      else if isPercentForm price_str then
        match parseFloat? (percentBody price_str) with
        | none => none
        | some percent => some (current_price * (1 + percent / 100), amount)
      else
        match parseFloat? price_str with
        | none => none
        | some price => if price ≤ 0 then none else some (price, amount)
  | _ => none

/-- The `for i, pair in enumerate(pairs)` loop of `parse_dca_config`: empty
pairs (after stripping) are skipped, any failing pair aborts the whole parse,
and surviving pairs are accumulated in order. -/
def parseLoop (cp : ℚ) : List PyStr → Option (List (ℚ × ℚ))
  | [] => some []
  | p :: ps =>
    let pair := pyStrip p
    if pair = [] then parseLoop cp ps
    else
      match parsePair cp pair with
      | none => none
      | some t => (parseLoop cp ps).map (fun l => t :: l)

/-- Order used by `thresholds.sort(key=lambda x: x[0])`: ascending resolved
price. -/
def priceLE (a b : ℚ × ℚ) : Prop := a.1 ≤ b.1

instance : DecidableRel priceLE :=
  fun a b => inferInstanceAs (Decidable (a.1 ≤ b.1))

instance : IsTotal (ℚ × ℚ) priceLE := ⟨fun a b => le_total a.1 b.1⟩

instance : IsTrans (ℚ × ℚ) priceLE := ⟨fun _ _ _ h h' => le_trans h h'⟩

/-- Result of `parse_dca_config`: `noLadder` models the `return None` taken
for a falsy spec string, `fatal` models `sys.exit(1)`. -/
inductive DcaResult where
  | noLadder : DcaResult
  | thresholds (l : List (ℚ × ℚ)) : DcaResult
  | fatal : DcaResult
deriving DecidableEq, Repr

/-- `parse_dca_config` (main.py lines 9–66): split the spec on commas, process
each pair, and sort the surviving thresholds ascending by price.  Python's
list sort is a stable sort on the price key, modelled here by the (equally
stable) insertion sort. -/
def parse_dca_config (dca_string : PyStr) (current_price : ℚ) : DcaResult :=
  if dca_string = [] then DcaResult.noLadder
  else
    match parseLoop current_price (pySplit ',' dca_string) with
    | none => DcaResult.fatal
    | some l => DcaResult.thresholds (List.insertionSort priceLE l)

/-! ## `main.py`: `generate_default_dca` (lines 69–84) -/

/-- `generate_default_dca` (main.py lines 69–84).  The Python float literals
`1.10`, `1.20`, `1.30`, `1.50` are read as the decimal values they denote. -/
def generate_default_dca (current_price balance : ℚ) : List (ℚ × ℚ) :=
  let portion := balance / 4
  [(current_price * (110 / 100), portion),
   (current_price * (120 / 100), portion),
   (current_price * (130 / 100), portion),
   (current_price * (150 / 100), portion)]

/-! ## `main.py`: `prompt_stop_distance` (lines 312–355) -/

/-- Stop-distance mode: `'percentage'` for menu choice `'1'`, `'absolute'` for
`'2'`. -/
inductive StopMode where
  | percentage : StopMode
  | absolute : StopMode
deriving DecidableEq, Repr

/-- What the user types during one pass of the `prompt_stop_distance` loop:
the menu choice, the distance value, and the answer to the possible
"Continue with this value?" confirmation. -/
structure StopPromptInput where
  choice : PyStr
  value_str : PyStr
  confirm : PyStr
deriving DecidableEq, Repr

/-- One pass of the `while True` loop of `prompt_stop_distance` (main.py lines
321–355).  `none` models every `continue`: an invalid menu choice, an
unparseable or non-positive value, or a declined `>= 1` percentage
confirmation. -/
def prompt_stop_distance_iter (i : StopPromptInput) : Option (StopMode × ℚ) :=
  let choice := pyStrip i.choice
  if choice ≠ ['1'] ∧ choice ≠ ['2'] then none
  else
    let mode := if choice = ['1'] then StopMode.percentage else StopMode.absolute
    match parseFloat? (pyStrip i.value_str) with
    | none => none
    | some value =>
      if value ≤ 0 then none
      else if mode = StopMode.percentage ∧ 1 ≤ value ∧ pyLower (pyStrip i.confirm) ≠ ['y'] then
        none
      else some (mode, value)

/-- `prompt_stop_distance` keeps looping until a pass accepts; the console
input stream is modelled as the finite list of per-pass inputs. -/
def prompt_stop_distance : List StopPromptInput → Option (StopMode × ℚ)
  | [] => none
  | i :: is =>
    match prompt_stop_distance_iter i with
    | some r => some r
    | none => prompt_stop_distance is

/-! ## `ui/screens/setup.py`: stop-distance validation (lines 174–204)

`validate_and_start` reads the stop-value field, requires it to be a number,
raises (and rejects) on `stop_value <= 0`, and otherwise starts trading with
`(stop_mode, stop_value)`.  Unlike the CLI prompt above, this path has no
`>= 1` percentage confirmation step at all. -/

/-- The stop-value validation performed by `SetupScreen.validate_and_start`:
`none` models the `notify(...)/return` rejection paths (empty field,
unparseable number, non-positive value); `some v` models proceeding to
`switch_to_trading` with `stop_value = v` under the screen's current
`stop_mode`. -/
def setup_validate_stop (stop_value_str : PyStr) : Option ℚ :=
  let s := pyStrip stop_value_str
  if s = [] then none
  else
    match parseFloat? s with
    | none => none
    | some v => if v ≤ 0 then none else some v

/-! ## `ui/widgets/threshold_tracker.py`: `mark_threshold_hit` (lines 33–39) -/

/-- `ThresholdTracker.mark_threshold_hit`: walk `self.thresholds` (tuples
`(price, amount, hit)`), set `hit = True` on the first entry whose price is
within `0.01` of the given price, and `break`. -/
def mark_threshold_hit : List (ℚ × ℚ × Bool) → ℚ → List (ℚ × ℚ × Bool)
  | [], _ => []
  | (price, amount, hit) :: ts, threshold_price =>
    if |price - threshold_price| < 1 / 100 then (price, amount, true) :: ts
    else (price, amount, hit) :: mark_threshold_hit ts threshold_price

/-! ## Modelled from the spec: the trailing-stop tracker

The StopLossTracker lives in `trail.py`, which is not among the available
sources (only its callers are).  Modelled from the spec, §4.1: `initialize`
sets `extreme` to the first price and computes the stop; `observe` improves
`extreme` only in the favorable direction (higher for Sell, lower for Buy) and
recomputes `stopPrice = extreme − distance` (absolute) or
`extreme × (1 − distance)` (percentage) for Sell, mirrored with `+` for Buy;
construction requires `distance > 0`, and in percentage mode `distance < 1`
unless explicitly overridden. -/

/-- Trade direction of an Engine instance. -/
inductive TradeType where
  | buy : TradeType
  | sell : TradeType
deriving DecidableEq, Repr

/-- Modelled from the spec: the mutable state of the StopLossTracker. -/
structure StopState where
  direction : TradeType
  mode : StopMode
  distance : ℚ
  extreme : ℚ
  stopPrice : ℚ
deriving DecidableEq, Repr

/-- Modelled from the spec: the stop level computed from the current extreme. -/
def computeStop (direction : TradeType) (mode : StopMode) (distance extreme : ℚ) : ℚ :=
  match direction, mode with
  | TradeType.sell, StopMode.absolute => extreme - distance
  | TradeType.sell, StopMode.percentage => extreme * (1 - distance)
  | TradeType.buy, StopMode.absolute => extreme + distance
  | TradeType.buy, StopMode.percentage => extreme * (1 + distance)

/-- Modelled from the spec: `initialize(firstPrice)`. -/
def initStop (direction : TradeType) (mode : StopMode) (distance firstPrice : ℚ) : StopState :=
  { direction := direction, mode := mode, distance := distance, extreme := firstPrice,
    stopPrice := computeStop direction mode distance firstPrice }

/-- Modelled from the spec: `observe(price)` — update the extreme only if the
price improves on it, then recompute the stop from the new extreme. -/
def observe (s : StopState) (price : ℚ) : StopState :=
  let extreme :=
    match s.direction with
    | TradeType.sell => if s.extreme < price then price else s.extreme
    | TradeType.buy => if price < s.extreme then price else s.extreme
  { s with extreme := extreme,
           stopPrice := computeStop s.direction s.mode s.distance extreme }

/-- The `stopPrice` values produced after each successive `observe` call. -/
def stopTrace (s : StopState) : List ℚ → List ℚ
  | [] => []
  | p :: ps => (observe s p).stopPrice :: stopTrace (observe s p) ps

/-! ## Modelled from the spec: the engine's threshold-hit discipline

The Engine's per-run threshold state also lives in the missing `trail.py`.
Modelled from the spec, §3/§4.2: a run starts from the ladder built at
startup, and the only operation that ever touches a `hit` flag is marking a
crossed threshold hit after its order is confirmed. -/

/-- A ladder threshold as the Engine holds it. -/
structure Threshold where
  price : ℚ
  amount : ℚ
  hit : Bool
deriving DecidableEq, Repr

/-- Modelled from the spec: mark the threshold at position `k` hit.  This is
the only mutation of `hit` available to a run. -/
def engineMarkHit : List Threshold → Nat → List Threshold
  | [], _ => []
  | t :: ts, 0 => { t with hit := true } :: ts
  | t :: ts, k + 1 => t :: engineMarkHit ts k

/-- The `hit` flag of threshold `k` after the first `t` mark operations of a
run (`false` when `k` is out of range). -/
def hitAt (tl : List Threshold) (ops : List Nat) (k t : Nat) : Bool :=
  (((ops.take t).foldl engineMarkHit tl).getD k ⟨0, 0, false⟩).hit

/-! ## `main.py`: `reset_instance_lock` (lines 358–399) -/

/-- One row of the `instance_locks` table. -/
structure LockRow where
  symbol : String
  trade_type : String
  running : Int
  pid : Option Int
  started_at : Option String
  updated_at : Option String
deriving DecidableEq, Repr

/-- Does a row match the `WHERE symbol = ? AND trade_type = ?` filter? -/
def lockMatches (symbol trade_type : String) (r : LockRow) : Bool :=
  r.symbol = symbol && r.trade_type = trade_type

/-- `reset_instance_lock` (main.py lines 358–399) acting on the
`instance_locks` table held as a row list: `SELECT ... WHERE` fetches the
first matching row; if it exists with `running = 1`, the `UPDATE` sets
`running = 0` and `updated_at = now` on every matching row; otherwise nothing
is written. -/
def reset_instance_lock (db : List LockRow) (symbol trade_type : String) (now : String) :
    List LockRow :=
  match db.find? (lockMatches symbol trade_type) with
  | none => db
  | some r =>
    if r.running = 1 then
      db.map (fun q =>
        if lockMatches symbol trade_type q then
          { q with running := 0, updated_at := some now }
        else q)
    else db

/-! ## `create-db.py`: the schema bootstrap (lines 3–62) -/

/-- A column of a `CREATE TABLE` statement: name and declared SQL type
(with `AUTOINCREMENT`/`NOT NULL` qualifiers elided). -/
structure ColumnDef where
  cname : String
  ctype : String
deriving DecidableEq, Repr

/-- A `CREATE TABLE` statement: table name, columns in order, and the primary
key (the column marked `PRIMARY KEY`, or the trailing composite
`PRIMARY KEY (...)` clause). -/
structure TableDef where
  tname : String
  columns : List ColumnDef
  primaryKey : List String
deriving DecidableEq, Repr

/-- A statement of the bootstrap script. -/
inductive SqlStatement where
  | createTable (t : TableDef) : SqlStatement
  | insertRow (table : String) (values : List String) : SqlStatement
deriving DecidableEq, Repr

/-- The statements executed by `create-db.py`, in order.  The script contains
six `CREATE TABLE` statements and no `INSERT` (its closing comment: "No
default data inserted"). -/
def create_db_script : List SqlStatement :=
  [SqlStatement.createTable
    { tname := "thresholds",
      columns := [⟨"id", "INTEGER"⟩, ⟨"symbol", "TEXT"⟩, ⟨"price", "INTEGER"⟩,
        ⟨"amount", "INTEGER"⟩, ⟨"threshold_hit", "STRING"⟩, ⟨"sold_at", "REAL"⟩],
      primaryKey := ["id"] },
   SqlStatement.createTable
    { tname := "hopper",
      columns := [⟨"id", "INTEGER"⟩, ⟨"symbol", "TEXT"⟩, ⟨"amount", "INTEGER"⟩],
      primaryKey := ["id"] },
   SqlStatement.createTable
    { tname := "available_funds",
      columns := [⟨"id", "INTEGER"⟩, ⟨"symbol", "TEXT"⟩, ⟨"account_balance", "INTEGER"⟩,
        ⟨"coin_hopper", "INTEGER"⟩],
      primaryKey := ["id"] },
   SqlStatement.createTable
    { tname := "stoploss",
      columns := [⟨"id", "INTEGER"⟩, ⟨"symbol", "TEXT"⟩, ⟨"stop_value", "REAL"⟩],
      primaryKey := ["id"] },
   SqlStatement.createTable
    { tname := "win_tracker",
      columns := [⟨"id", "INTEGER"⟩, ⟨"symbol", "TEXT"⟩, ⟨"price_at_deposit", "REAL"⟩,
        ⟨"price_at_buy", "INTEGER"⟩, ⟨"buy_count", "INTEGER"⟩, ⟨"win_count", "INTEGER"⟩],
      primaryKey := ["id"] },
   SqlStatement.createTable
    { tname := "instance_locks",
      columns := [⟨"symbol", "TEXT"⟩, ⟨"trade_type", "TEXT"⟩, ⟨"running", "INTEGER"⟩,
        ⟨"pid", "INTEGER"⟩, ⟨"started_at", "TEXT"⟩, ⟨"updated_at", "TEXT"⟩],
      primaryKey := ["symbol", "trade_type"] }]

/-- Is a bootstrap statement an `INSERT`? -/
def SqlStatement.isInsert : SqlStatement → Bool
  | SqlStatement.createTable _ => false
  | SqlStatement.insertRow _ _ => true

/-- The table created by a statement, if it is a `CREATE TABLE`. -/
def SqlStatement.tableDef? : SqlStatement → Option TableDef
  | SqlStatement.createTable t => some t
  | SqlStatement.insertRow _ _ => none

/-! ## `coinbasepro.py`: `get_order` (lines 143–180) -/

/-- The fields of the Advanced Trade order payload that `get_order` reads,
after the `float(...get(..., 0))` conversions: an absent field reads as `0`
via `Option.getD`. -/
structure RawOrder where
  order_id : Option String
  status : Option String
  filled_size : Option ℚ
  filled_value : Option ℚ
  total_fees : Option ℚ
  product_id : Option PyStr
deriving DecidableEq, Repr

/-- The CCXT-compatible order shape `get_order` returns. -/
structure OrderResult where
  id : Option String
  status : Option String
  amount : ℚ
  filled : ℚ
  cost : ℚ
  price : ℚ
  fee_cost : ℚ
  fee_currency : PyStr
deriving DecidableEq, Repr

/-- `get_order` (coinbasepro.py lines 143–180): the reported average fill
price is `filled_value / filled_size` when `filled_size > 0` and `0`
otherwise; the fee currency is the last `-`-separated chunk of the product
id (`''` when absent). -/
def get_order (o : RawOrder) : OrderResult :=
  let filled_size := o.filled_size.getD 0
  let filled_value := o.filled_value.getD 0
  let total_fees := o.total_fees.getD 0
  let avg_price := if filled_size > 0 then filled_value / filled_size else 0
  { id := o.order_id, status := o.status, amount := filled_size, filled := filled_size,
    cost := filled_value, price := avg_price, fee_cost := total_fees,
    fee_currency := (pySplit '-' (o.product_id.getD [])).getLastD [] }

/-! ## `coinbasepro.py`: `get_balance` (lines 115–141) -/

/-- The fields of an Advanced Trade account entry that `get_balance` reads:
its `currency` code and its `available_balance.value` (already converted by
`float(...get('value', 0))`, absent reading as `0`). -/
structure Account where
  currency : Option String
  balance_value : Option ℚ
deriving DecidableEq, Repr

/-- `get_balance` (coinbasepro.py lines 115–141): walk the accounts in
response order and return the available balance of the first account whose
currency equals the requested coin, or `0.0` when none matches. -/
def get_balance : List Account → String → ℚ
  | [], _ => 0
  | a :: rest, coin =>
    if a.currency = some coin then (a.balance_value.getD 0)
    else get_balance rest coin

/-! ## Helper lemmas: evaluating parsed numbers and pairs -/

/-- Closed form of a literal's value from the numeric values of its digit
runs. -/
theorem NumParts.val_eq (n : NumParts) (i f l : ℕ)
    (hi : digitsVal n.ip = i) (hf : digitsVal n.fp = f) (hl : n.fp.length = l) :
    n.val = (n.sign : ℚ) * ((i : ℚ) + (f : ℚ) / 10 ^ l) * (10 : ℚ) ^ n.exp := by
  simp [NumParts.val, hi, hf, hl]

/-- A pair in percentage form resolves to `current_price × (1 + N/100)` with
the amount as parsed. -/
theorem parsePair_percent (cp : ℚ) (pair p a : PyStr) (np na : NumParts)
    (hsplit : pySplit ':' pair = [p, a])
    (hperc : isPercentForm (pyStrip p) = true)
    (hp : parseNum? (percentBody (pyStrip p)) = some np)
    (ha : parseNum? (pyStrip a) = some na)
    (hpos : 0 < na.val) :
    parsePair cp pair = some (cp * (1 + np.val / 100), na.val) := by
  simp [parsePair, hsplit, parseFloat?, hp, ha, hperc, hpos.not_le]

/-- A pair in absolute form keeps its parsed price as given. -/
theorem parsePair_abs (cp : ℚ) (pair p a : PyStr) (np na : NumParts)
    (hsplit : pySplit ':' pair = [p, a])
    (hperc : isPercentForm (pyStrip p) = false)
    (hp : parseNum? (pyStrip p) = some np)
    (hppos : 0 < np.val)
    (ha : parseNum? (pyStrip a) = some na)
    (hpos : 0 < na.val) :
    parsePair cp pair = some (np.val, na.val) := by
  simp [parsePair, hsplit, parseFloat?, hp, ha, hperc, hpos.not_le, hppos.not_le]

/-- Every threshold produced by the parsing loop comes from one of the comma
fields, resolved by `parsePair`. -/
theorem parseLoop_mem {cp : ℚ} {t : ℚ × ℚ} :
    ∀ {ps : List PyStr} {l : List (ℚ × ℚ)}, parseLoop cp ps = some l → t ∈ l →
      ∃ p ∈ ps, parsePair cp (pyStrip p) = some t
  | [], l, h, ht => by
    simp [parseLoop] at h
    subst h
    simp at ht
  | p :: ps, l, h, ht => by
    rw [parseLoop] at h
    by_cases hskip : pyStrip p = []
    · rw [if_pos hskip] at h
      obtain ⟨q, hq, hpq⟩ := parseLoop_mem h ht
      exact ⟨q, List.mem_cons_of_mem _ hq, hpq⟩
    · rw [if_neg hskip] at h
      cases hpp : parsePair cp (pyStrip p) with
      | none => rw [hpp] at h; exact absurd h (by simp)
      | some t0 =>
        rw [hpp] at h
        cases hrest : parseLoop cp ps with
        | none => rw [hrest] at h; exact absurd h (by simp)
        | some l' =>
          rw [hrest] at h
          simp at h
          subst h
          rcases List.mem_cons.mp ht with rfl | hmem
          · exact ⟨p, List.mem_cons_self p ps, hpp⟩
          · obtain ⟨q, hq, hpq⟩ := parseLoop_mem hrest hmem
            exact ⟨q, List.mem_cons_of_mem _ hq, hpq⟩

/-- A successful parse is sorted ascending by resolved price, and each of its
entries is the resolution of one of the comma fields. -/
theorem parse_sorted {s : PyStr} {cp : ℚ} {l : List (ℚ × ℚ)}
    (h : parse_dca_config s cp = DcaResult.thresholds l) :
    l.Pairwise priceLE ∧ ∀ t ∈ l, ∃ p ∈ pySplit ',' s, parsePair cp (pyStrip p) = some t := by
  rw [parse_dca_config] at h
  by_cases hs : s = []
  · rw [if_pos hs] at h; exact absurd h (by simp)
  · rw [if_neg hs] at h
    cases hloop : parseLoop cp (pySplit ',' s) with
    | none => rw [hloop] at h; exact absurd h (by simp)
    | some l0 =>
      rw [hloop] at h
      simp at h
      subst h
      constructor
      · exact List.sorted_insertionSort priceLE l0
      · intro t ht
        exact parseLoop_mem hloop ((List.mem_insertionSort priceLE).mp ht)

/-- The worked example of the spec: `"+10%:100,+20%:150"` at price 10. -/
theorem parse_example : parse_dca_config ("+10%:100,+20%:150".toList) 10 =
    DcaResult.thresholds [(11, 100), (12, 150)] := by
  have h1 : parsePair 10 (pyStrip ("+10%:100".toList)) = some (11, 100) := by
    rw [parsePair_percent 10 _ ("+10%".toList) ("100".toList) ⟨1, ['1','0'], [], 0⟩
      ⟨1, ['1','0','0'], [], 0⟩ (by decide) (by decide) (by decide) (by decide)
      (by rw [NumParts.val_eq _ 100 0 0 (by decide) (by decide) (by decide)]; norm_num)]
    rw [NumParts.val_eq _ 10 0 0 (by decide) (by decide) (by decide),
      NumParts.val_eq _ 100 0 0 (by decide) (by decide) (by decide)]
    norm_num
  have h2 : parsePair 10 (pyStrip ("+20%:150".toList)) = some (12, 150) := by
    rw [parsePair_percent 10 _ ("+20%".toList) ("150".toList) ⟨1, ['2','0'], [], 0⟩
      ⟨1, ['1','5','0'], [], 0⟩ (by decide) (by decide) (by decide) (by decide)
      (by rw [NumParts.val_eq _ 150 0 0 (by decide) (by decide) (by decide)]; norm_num)]
    rw [NumParts.val_eq _ 20 0 0 (by decide) (by decide) (by decide),
      NumParts.val_eq _ 150 0 0 (by decide) (by decide) (by decide)]
    norm_num
  have hne1 : ¬(pyStrip ("+10%:100".toList) = []) := by decide
  have hne2 : ¬(pyStrip ("+20%:150".toList) = []) := by decide
  have hsplit : pySplit ',' ("+10%:100,+20%:150".toList) =
      ["+10%:100".toList, "+20%:150".toList] := by decide
  have hloop : parseLoop 10 ["+10%:100".toList, "+20%:150".toList] =
      some [(11, 100), (12, 150)] := by
    simp only [parseLoop]
    rw [if_neg hne1, h1, if_neg hne2, h2]
    rfl
  rw [parse_dca_config, if_neg (by decide : ¬("+10%:100,+20%:150".toList = [])), hsplit, hloop]
  norm_num [List.insertionSort, List.orderedInsert, priceLE]

/-- The success condition of `parsePair` the claim describes: a pair is kept
exactly when it splits into `PRICE:AMOUNT`, the amount parses to a positive
number, and the price either uses the `+N%` form with a parseable percentage
or is a parseable positive absolute price. -/
def pairAccepted (pair : PyStr) : Prop :=
  ∃ p a, pySplit ':' pair = [p, a] ∧
    (∃ amt : ℚ, parseFloat? (pyStrip a) = some amt ∧ 0 < amt) ∧
    (if isPercentForm (pyStrip p) then (parseFloat? (percentBody (pyStrip p))).isSome = true
     else ∃ pr : ℚ, parseFloat? (pyStrip p) = some pr ∧ 0 < pr)

theorem parsePair_isSome_iff (cp : ℚ) (pair : PyStr) :
    (∃ t, parsePair cp pair = some t) ↔ pairAccepted pair := by
  rcases hsp : pySplit ':' pair with - | ⟨p, - | ⟨a, - | ⟨c, rest⟩⟩⟩
  · simp [parsePair, pairAccepted, hsp]
  · simp [parsePair, pairAccepted, hsp]
  · rw [parsePair, pairAccepted]
    simp only [hsp, List.cons.injEq, and_true]
    constructor
    · rintro ⟨t, ht⟩
      refine ⟨p, a, ⟨rfl, rfl⟩, ?_⟩
      cases hfa : parseFloat? (pyStrip a) with
      | none => rw [hfa] at ht; simp at ht
      | some amt =>
        rw [hfa] at ht
        simp only at ht
        by_cases hle : amt ≤ 0
        · rw [if_pos hle] at ht; simp at ht
        · rw [if_neg hle] at ht
          refine ⟨⟨amt, rfl, lt_of_not_le hle⟩, ?_⟩
          by_cases hpf : isPercentForm (pyStrip p)
          · rw [if_pos hpf] at ht ⊢
            cases hfp : parseFloat? (percentBody (pyStrip p)) with
            | none => rw [hfp] at ht; simp at ht
            | some q => simp [hfp]
          · rw [if_neg hpf] at ht
            simp only [Bool.not_eq_true] at hpf
            rw [hpf, if_neg (by simp)]
            cases hfp : parseFloat? (pyStrip p) with
            | none => rw [hfp] at ht; simp at ht
            | some pr =>
              rw [hfp] at ht
              simp only at ht
              by_cases hple : pr ≤ 0
              · rw [if_pos hple] at ht; simp at ht
              · exact ⟨pr, rfl, lt_of_not_le hple⟩
    · rintro ⟨p', a', ⟨hp', ha'⟩, ⟨amt, hamt, hampos⟩, hprice⟩
      subst hp'; subst ha'
      rw [hamt]
      simp only
      rw [if_neg hampos.not_le]
      by_cases hpf : isPercentForm (pyStrip p)
      · rw [if_pos hpf] at hprice
        rw [if_pos hpf]
        obtain ⟨q, hq⟩ := Option.isSome_iff_exists.mp hprice
        rw [hq]
        exact ⟨_, rfl⟩
      · rw [if_neg hpf] at hprice
        rw [if_neg hpf]
        obtain ⟨pr, hpr, hprpos⟩ := hprice
        rw [hpr]
        simp only
        rw [if_neg hprpos.not_le]
        exact ⟨_, rfl⟩
  · simp [parsePair, pairAccepted, hsp]

theorem parseLoop_isSome_iff (cp : ℚ) :
    ∀ ps : List PyStr, (∃ l, parseLoop cp ps = some l) ↔
      ∀ p ∈ ps, pyStrip p = [] ∨ pairAccepted (pyStrip p)
  | [] => by simp [parseLoop]
  | p :: ps => by
    rw [parseLoop]
    by_cases hskip : pyStrip p = []
    · rw [if_pos hskip]
      rw [parseLoop_isSome_iff cp ps]
      simp [hskip]
    · rw [if_neg hskip]
      constructor
      · intro ⟨l, hl⟩
        cases hpp : parsePair cp (pyStrip p) with
        | none => rw [hpp] at hl; simp at hl
        | some t =>
          rw [hpp] at hl
          simp only at hl
          cases hrest : parseLoop cp ps with
          | none => rw [hrest] at hl; simp at hl
          | some l' =>
            intro q hq
            rcases List.mem_cons.mp hq with rfl | hmem
            · exact Or.inr ((parsePair_isSome_iff cp (pyStrip q)).mp ⟨t, hpp⟩)
            · exact ((parseLoop_isSome_iff cp ps).mp ⟨l', hrest⟩) q hmem
      · intro hall
        have hp := (hall p (List.mem_cons_self p ps)).resolve_left hskip
        obtain ⟨t, ht⟩ := (parsePair_isSome_iff cp (pyStrip p)).mpr hp
        rw [ht]
        obtain ⟨l', hl'⟩ := (parseLoop_isSome_iff cp ps).mpr
          (fun q hq => hall q (List.mem_cons_of_mem _ hq))
        rw [hl']
        exact ⟨t :: l', rfl⟩

theorem parse_fatal_iff (s : PyStr) (cp : ℚ) :
    parse_dca_config s cp = DcaResult.fatal ↔
      ∃ p ∈ pySplit ',' s, ¬(pyStrip p = [] ∨ pairAccepted (pyStrip p)) := by
  have hkey : (∃ l, parseLoop cp (pySplit ',' s) = some l) ↔
      ∀ p ∈ pySplit ',' s, pyStrip p = [] ∨ pairAccepted (pyStrip p) :=
    parseLoop_isSome_iff cp (pySplit ',' s)
  by_cases hs : s = []
  · subst hs
    constructor
    · intro h; exact absurd h (by rw [parse_dca_config]; simp)
    · rintro ⟨p, hp, hbad⟩
      refine absurd ?_ hbad
      have hpnil : p = [] := by
        have he : pySplit ',' ([] : PyStr) = [[]] := rfl
        rw [he] at hp; simpa using hp
      subst hpnil
      exact Or.inl rfl
  · rw [parse_dca_config, if_neg hs]
    cases hloop : parseLoop cp (pySplit ',' s) with
    | none =>
      constructor
      · intro _
        rw [hloop] at hkey
        have hnot : ¬ ∀ p ∈ pySplit ',' s, pyStrip p = [] ∨ pairAccepted (pyStrip p) := by
          intro hall
          obtain ⟨l, hl⟩ := hkey.mpr hall
          exact Option.noConfusion hl
        push_neg at hnot
        obtain ⟨p, hp, h1, h2⟩ := hnot
        exact ⟨p, hp, by simp [h1, h2]⟩
      · intro _; rfl
    | some l0 =>
      constructor
      · intro h; exact absurd h (by simp)
      · rintro ⟨p, hp, hbad⟩
        rw [hloop] at hkey
        exact absurd (hkey.mp ⟨l0, rfl⟩ p hp) hbad

theorem parse_success (s : PyStr) (cp : ℚ) (hs : s ≠ [])
    (hall : ∀ p ∈ pySplit ',' s, pyStrip p = [] ∨ pairAccepted (pyStrip p)) :
    ∃ l, parse_dca_config s cp = DcaResult.thresholds l := by
  obtain ⟨l0, hl0⟩ := (parseLoop_isSome_iff cp (pySplit ',' s)).mpr hall
  exact ⟨_, by rw [parse_dca_config, if_neg hs, hl0]⟩

/-- Sell-side stop computation is monotone in the extreme (for a valid
configuration: a percentage distance below 1). -/
theorem computeStop_mono_sell (mode : StopMode) (d : ℚ)
    (hpct : mode = StopMode.percentage → d < 1) {e e' : ℚ} (h : e ≤ e') :
    computeStop TradeType.sell mode d e ≤ computeStop TradeType.sell mode d e' := by
  cases mode with
  | absolute => simpa [computeStop] using h
  | percentage =>
    simp only [computeStop]
    have h1 : (0 : ℚ) ≤ 1 - d := by linarith [hpct rfl]
    exact mul_le_mul_of_nonneg_right h h1

/-- Buy-side stop computation is monotone in the extreme (for a positive
distance). -/
theorem computeStop_mono_buy (mode : StopMode) (d : ℚ) (hd : 0 < d) {e e' : ℚ} (h : e' ≤ e) :
    computeStop TradeType.buy mode d e' ≤ computeStop TradeType.buy mode d e := by
  cases mode with
  | absolute => simpa [computeStop] using h
  | percentage =>
    simp only [computeStop]
    have h1 : (0 : ℚ) ≤ 1 + d := by linarith
    exact mul_le_mul_of_nonneg_right h h1

/-- Extending a `≤`-sorted list downward. -/
theorem pairwise_le_cons_of_le {x y : ℚ} {l : List ℚ} (hxy : x ≤ y)
    (h : List.Pairwise (fun a b : ℚ => a ≤ b) (y :: l)) :
    List.Pairwise (fun a b : ℚ => a ≤ b) (x :: y :: l) := by
  rcases List.pairwise_cons.mp h with ⟨hy, _⟩
  refine List.pairwise_cons.mpr ⟨fun z hz => ?_, h⟩
  rcases List.mem_cons.mp hz with rfl | hz
  · exact hxy
  · exact hxy.trans (hy z hz)

/-- Extending a `≥`-sorted list upward. -/
theorem pairwise_ge_cons_of_ge {x y : ℚ} {l : List ℚ} (hxy : y ≤ x)
    (h : List.Pairwise (fun a b : ℚ => b ≤ a) (y :: l)) :
    List.Pairwise (fun a b : ℚ => b ≤ a) (x :: y :: l) := by
  rcases List.pairwise_cons.mp h with ⟨hy, _⟩
  refine List.pairwise_cons.mpr ⟨fun z hz => ?_, h⟩
  rcases List.mem_cons.mp hz with rfl | hz
  · exact hxy
  · exact (hy z hz).trans hxy

/-- In Sell mode the stop prices seen over a run are non-decreasing. -/
theorem stopTrace_pairwise_sell (mode : StopMode) (d : ℚ)
    (hpct : mode = StopMode.percentage → d < 1) :
    ∀ (prices : List ℚ) (e : ℚ),
      List.Pairwise (fun a b : ℚ => a ≤ b)
        (computeStop TradeType.sell mode d e ::
          stopTrace ⟨TradeType.sell, mode, d, e, computeStop TradeType.sell mode d e⟩ prices)
  | [], e => by simp [stopTrace]
  | p :: ps, e => by
    have hee : e ≤ (if e < p then p else e) := by
      split
      · exact le_of_lt (by assumption)
      · exact le_rfl
    have hIH := stopTrace_pairwise_sell mode d hpct ps (if e < p then p else e)
    exact pairwise_le_cons_of_le (computeStop_mono_sell mode d hpct hee) hIH

/-- In Buy mode the stop prices seen over a run are non-increasing. -/
theorem stopTrace_pairwise_buy (mode : StopMode) (d : ℚ) (hd : 0 < d) :
    ∀ (prices : List ℚ) (e : ℚ),
      List.Pairwise (fun a b : ℚ => b ≤ a)
        (computeStop TradeType.buy mode d e ::
          stopTrace ⟨TradeType.buy, mode, d, e, computeStop TradeType.buy mode d e⟩ prices)
  | [], e => by simp [stopTrace]
  | p :: ps, e => by
    have hee : (if p < e then p else e) ≤ e := by
      split
      · exact le_of_lt (by assumption)
      · exact le_rfl
    have hIH := stopTrace_pairwise_buy mode d hd ps (if p < e then p else e)
    exact pairwise_ge_cons_of_ge (computeStop_mono_buy mode d hd hee) hIH

/-- One engine mark operation never clears a `hit` flag. -/
theorem engineMarkHit_hit_mono :
    ∀ (tl : List Threshold) (i k : Nat),
      (tl.getD k ⟨0, 0, false⟩).hit = true →
      ((engineMarkHit tl i).getD k ⟨0, 0, false⟩).hit = true
  | [], _, _, h => h
  | t :: ts, 0, 0, h => by simp [engineMarkHit]
  | t :: ts, 0, k + 1, h => by simpa [engineMarkHit] using h
  | t :: ts, i + 1, 0, h => by simpa [engineMarkHit] using h
  | t :: ts, i + 1, k + 1, h => by
    simp only [engineMarkHit, List.getD_cons_succ] at h ⊢
    exact engineMarkHit_hit_mono ts i k h

/-- A whole sequence of engine mark operations never clears a `hit` flag. -/
theorem foldl_markHit_hit_mono :
    ∀ (ops : List Nat) (tl : List Threshold) (k : Nat),
      (tl.getD k ⟨0, 0, false⟩).hit = true →
      ((ops.foldl engineMarkHit tl).getD k ⟨0, 0, false⟩).hit = true
  | [], _, _, h => h
  | i :: ops, tl, k, h =>
    foldl_markHit_hit_mono ops (engineMarkHit tl i) k (engineMarkHit_hit_mono tl i k h)

/-- Once set, a threshold's `hit` flag stays set for the rest of the run. -/
theorem hitAt_mono (tl : List Threshold) (ops : List Nat) (k : Nat) {t t' : Nat} (h : t ≤ t')
    (hh : hitAt tl ops k t = true) : hitAt tl ops k t' = true := by
  rw [hitAt] at hh ⊢
  have hsplit : ops.take t' = ops.take t ++ (ops.take t').drop t := by
    conv_lhs => rw [← List.take_append_drop t (ops.take t')]
    rw [List.take_take, min_eq_left h]
  rw [hsplit, List.foldl_append]
  exact foldl_markHit_hit_mono _ _ _ hh

/-- `mark_threshold_hit` with no threshold within `0.01` changes nothing. -/
theorem mark_threshold_hit_no_match :
    ∀ (tl : List (ℚ × ℚ × Bool)) (tp : ℚ),
      (∀ q ∈ tl, ¬(|q.1 - tp| < 1 / 100)) → mark_threshold_hit tl tp = tl
  | [], tp, h => rfl
  | (p, a, b) :: ts, tp, h => by
    rw [mark_threshold_hit, if_neg (h (p, a, b) (List.mem_cons_self _ _)),
      mark_threshold_hit_no_match ts tp (fun q hq => h q (List.mem_cons_of_mem _ hq))]

/-- `mark_threshold_hit` marks exactly the first threshold within `0.01`,
leaving its price and amount and every other list entry unchanged. -/
theorem mark_threshold_hit_first_match :
    ∀ (pre : List (ℚ × ℚ × Bool)) (p amt : ℚ) (b : Bool) (post : List (ℚ × ℚ × Bool)) (tp : ℚ),
      (∀ q ∈ pre, ¬(|q.1 - tp| < 1 / 100)) → |p - tp| < 1 / 100 →
      mark_threshold_hit (pre ++ (p, amt, b) :: post) tp = pre ++ (p, amt, true) :: post
  | [], p, amt, b, post, tp, hpre, hp => by
    rw [List.nil_append, mark_threshold_hit, if_pos hp, List.nil_append]
  | (q1, q2, q3) :: pre, p, amt, b, post, tp, hpre, hp => by
    rw [List.cons_append, mark_threshold_hit,
      if_neg (hpre (q1, q2, q3) (List.mem_cons_self _ _)),
      mark_threshold_hit_first_match pre p amt b post tp
        (fun q hq => hpre q (List.mem_cons_of_mem _ hq)) hp, List.cons_append]

/-- An accepted pass of the stop-distance prompt yields a positive value, and
a percentage value of at least 1 only with the override confirmed. -/
theorem prompt_iter_accept {i : StopPromptInput} {m : StopMode} {v : ℚ}
    (h : prompt_stop_distance_iter i = some (m, v)) :
    0 < v ∧ (m = StopMode.percentage → 1 ≤ v → pyLower (pyStrip i.confirm) = ['y']) := by
  rw [prompt_stop_distance_iter] at h
  by_cases hc : pyStrip i.choice ≠ ['1'] ∧ pyStrip i.choice ≠ ['2']
  · rw [if_pos hc] at h; exact absurd h (by simp)
  · rw [if_neg hc] at h
    cases hf : parseFloat? (pyStrip i.value_str) with
    | none => rw [hf] at h; exact absurd h (by simp)
    | some value =>
      rw [hf] at h
      simp only at h
      by_cases hle : value ≤ 0
      · rw [if_pos hle] at h; exact absurd h (by simp)
      · rw [if_neg hle] at h
        by_cases hover : (if pyStrip i.choice = ['1'] then StopMode.percentage
              else StopMode.absolute) = StopMode.percentage ∧
            1 ≤ value ∧ pyLower (pyStrip i.confirm) ≠ ['y']
        · rw [if_pos hover] at h; exact absurd h (by simp)
        · rw [if_neg hover] at h
          simp only [Option.some.injEq, Prod.mk.injEq] at h
          obtain ⟨hm, hv⟩ := h
          subst hm; subst hv
          refine ⟨lt_of_not_le hle, fun hperc hge => ?_⟩
          by_contra hny
          exact hover ⟨hperc, hge, hny⟩

/-- An accepted run of the stop-distance prompt yields a positive value,
coming from some pass of the loop, with the override confirmed whenever the
mode is percentage and the value is at least 1. -/
theorem prompt_accept :
    ∀ {inputs : List StopPromptInput} {m : StopMode} {v : ℚ},
      prompt_stop_distance inputs = some (m, v) →
      0 < v ∧ ∃ i ∈ inputs, prompt_stop_distance_iter i = some (m, v) ∧
        (m = StopMode.percentage → 1 ≤ v → pyLower (pyStrip i.confirm) = ['y'])
  | [], m, v, h => by simp [prompt_stop_distance] at h
  | i :: is, m, v, h => by
    rw [prompt_stop_distance] at h
    cases hit : prompt_stop_distance_iter i with
    | some r =>
      rw [hit] at h
      simp only [Option.some.injEq] at h
      subst h
      obtain ⟨hpos, hover⟩ := prompt_iter_accept hit
      exact ⟨hpos, i, List.mem_cons_self _ _, hit, hover⟩
    | none =>
      rw [hit] at h
      simp only at h
      obtain ⟨hpos, j, hj, hja, hjo⟩ := prompt_accept h
      exact ⟨hpos, j, List.mem_cons_of_mem _ hj, hja, hjo⟩

/-- The setup screen's stop validation only accepts positive values. -/
theorem setup_validate_pos {s : PyStr} {v : ℚ} (h : setup_validate_stop s = some v) :
    0 < v := by
  rw [setup_validate_stop] at h
  by_cases hs : pyStrip s = []
  · rw [if_pos hs] at h; exact absurd h (by simp)
  · rw [if_neg hs] at h
    cases hf : parseFloat? (pyStrip s) with
    | none => rw [hf] at h; exact absurd h (by simp)
    | some value =>
      rw [hf] at h
      simp only at h
      by_cases hle : value ≤ 0
      · rw [if_pos hle] at h; exact absurd h (by simp)
      · rw [if_neg hle] at h
        simp only [Option.some.injEq] at h
        subst h
        exact lt_of_not_le hle

/-- Evaluating the setup validation on the literal `"5"`. -/
theorem setup_validate_five : setup_validate_stop ("5".toList) = some 5 := by
  have hnum : parseNum? (pyStrip ("5".toList)) = some ⟨1, ['5'], [], 0⟩ := by decide
  have hval : NumParts.val ⟨1, ['5'], [], 0⟩ = 5 := by
    rw [NumParts.val_eq _ 5 0 0 (by decide) (by decide) (by decide)]; norm_num
  rw [setup_validate_stop, if_neg (by decide : ¬(pyStrip ("5".toList) = [])),
    parseFloat?, hnum]
  simp only [Option.map_some']
  rw [hval, if_neg (by norm_num)]

/-- A list of rows none of which match is unchanged by the `UPDATE`'s map. -/
theorem lock_map_unmatched (symbol trade_type now : String) :
    ∀ (l : List LockRow), (∀ q ∈ l, lockMatches symbol trade_type q = false) →
      l.map (fun q =>
        if lockMatches symbol trade_type q then
          { q with running := 0, updated_at := some now }
        else q) = l
  | [], _ => rfl
  | q :: l, h => by
    rw [List.map_cons, if_neg (by simp [h q (List.mem_cons_self _ _)]),
      lock_map_unmatched symbol trade_type now l (fun r hr => h r (List.mem_cons_of_mem _ hr))]

/-- `find?` locates the single matching row. -/
theorem lock_find_eq (symbol trade_type : String) (r : LockRow)
    (hr : lockMatches symbol trade_type r = true) :
    ∀ (pre : List LockRow), (∀ q ∈ pre, lockMatches symbol trade_type q = false) →
      ∀ (post : List LockRow),
        (pre ++ r :: post).find? (lockMatches symbol trade_type) = some r
  | [], _, post => by rw [List.nil_append, List.find?_cons_of_pos _ hr]
  | q :: pre, h, post => by
    rw [List.cons_append, List.find?_cons_of_neg _ (by simp [h q (List.mem_cons_self _ _)]),
      lock_find_eq symbol trade_type r hr pre (fun x hx => h x (List.mem_cons_of_mem _ hx)) post]

/-- The frame effect of `reset_instance_lock` on the unique matching row. -/
theorem reset_lock_frame (pre post : List LockRow) (r : LockRow) (symbol trade_type now : String)
    (hpre : ∀ q ∈ pre, lockMatches symbol trade_type q = false)
    (hpost : ∀ q ∈ post, lockMatches symbol trade_type q = false)
    (hr : lockMatches symbol trade_type r = true) :
    reset_instance_lock (pre ++ r :: post) symbol trade_type now =
      if r.running = 1 then pre ++ { r with running := 0, updated_at := some now } :: post
      else pre ++ r :: post := by
  rw [reset_instance_lock, lock_find_eq symbol trade_type r hr pre hpre post]
  simp only
  by_cases hrun : r.running = 1
  · rw [if_pos hrun, if_pos hrun, List.map_append, List.map_cons, if_pos hr,
      lock_map_unmatched symbol trade_type now pre hpre,
      lock_map_unmatched symbol trade_type now post hpost]
  · rw [if_neg hrun, if_neg hrun]

/-- With no matching row, `reset_instance_lock` changes nothing. -/
theorem reset_lock_no_match (db : List LockRow) (symbol trade_type now : String)
    (h : ∀ q ∈ db, lockMatches symbol trade_type q = false) :
    reset_instance_lock db symbol trade_type now = db := by
  rw [reset_instance_lock, List.find?_eq_none.mpr (fun x hx => by simp [h x hx])]

/-! ## The claims -/

/-- C1: For every sequence of observed prices fed to a validly constructed
trailing-stop tracker (positive distance; a percentage distance below 1), the
trigger level only moves in the favorable direction: in Sell mode the
`stopPrice` after each `observe` is at least every earlier one
(non-decreasing), in Buy mode at most every earlier one (non-increasing).
(Modelled from the spec: the tracker lives in `trail.py`, which is not among
the available sources.) -/
theorem C1_trailing_stop_monotone (mode : StopMode) (d firstPrice : ℚ) (prices : List ℚ)
    (hd : 0 < d) (hpct : mode = StopMode.percentage → d < 1) :
    List.Pairwise (fun a b : ℚ => a ≤ b)
      ((initStop TradeType.sell mode d firstPrice).stopPrice ::
        stopTrace (initStop TradeType.sell mode d firstPrice) prices) ∧
    List.Pairwise (fun a b : ℚ => b ≤ a)
      ((initStop TradeType.buy mode d firstPrice).stopPrice ::
        stopTrace (initStop TradeType.buy mode d firstPrice) prices) :=
  ⟨stopTrace_pairwise_sell mode d hpct prices firstPrice,
   stopTrace_pairwise_buy mode d hd prices firstPrice⟩

/-- Witness for C1 at a concrete run: absolute distance 1 from first price 10,
prices 11, 9, 12. -/
theorem C1_trailing_stop_monotone_witness :
    (0 : ℚ) < 1 ∧
    List.Pairwise (fun a b : ℚ => a ≤ b)
      ((initStop TradeType.sell StopMode.absolute 1 10).stopPrice ::
        stopTrace (initStop TradeType.sell StopMode.absolute 1 10) [11, 9, 12]) :=
  ⟨by norm_num,
   (C1_trailing_stop_monotone StopMode.absolute 1 10 [11, 9, 12] (by norm_num)
     (by decide)).1⟩

/-- C2: a successful `parse_dca_config` is sorted ascending by resolved price
and every returned threshold is the resolution of one comma field; a `+N%`
pair resolves to `currentPrice × (1 + N/100)` with its parsed amount; an
absolute pair keeps its parsed price as given; and the spec's example
`"+10%:100,+20%:150"` at current price 10 parses to `[(11,100),(12,150)]`. -/
theorem C2_parse_dca_resolution :
    (∀ (s : PyStr) (cp : ℚ) (l : List (ℚ × ℚ)),
      parse_dca_config s cp = DcaResult.thresholds l →
        l.Pairwise priceLE ∧ ∀ t ∈ l, ∃ p ∈ pySplit ',' s, parsePair cp (pyStrip p) = some t) ∧
    (∀ (cp : ℚ) (pair p a : PyStr) (np na : NumParts),
      pySplit ':' pair = [p, a] → isPercentForm (pyStrip p) = true →
      parseNum? (percentBody (pyStrip p)) = some np → parseNum? (pyStrip a) = some na →
      0 < na.val → parsePair cp pair = some (cp * (1 + np.val / 100), na.val)) ∧
    (∀ (cp : ℚ) (pair p a : PyStr) (np na : NumParts),
      pySplit ':' pair = [p, a] → isPercentForm (pyStrip p) = false →
      parseNum? (pyStrip p) = some np → 0 < np.val →
      parseNum? (pyStrip a) = some na → 0 < na.val →
      parsePair cp pair = some (np.val, na.val)) ∧
    parse_dca_config ("+10%:100,+20%:150".toList) 10 =
      DcaResult.thresholds [(11, 100), (12, 150)] :=
  ⟨fun _ _ _ h => parse_sorted h,
   fun cp pair p a np na h1 h2 h3 h4 h5 => parsePair_percent cp pair p a np na h1 h2 h3 h4 h5,
   fun cp pair p a np na h1 h2 h3 h4 h5 h6 => parsePair_abs cp pair p a np na h1 h2 h3 h4 h5 h6,
   parse_example⟩

/-- Witness for C2: sortedness of the example's output, obtained by applying
the theorem to its own concrete parse. -/
theorem C2_parse_dca_resolution_witness :
    List.Pairwise priceLE [((11 : ℚ), (100 : ℚ)), (12, 150)] :=
  (C2_parse_dca_resolution.1 ("+10%:100,+20%:150".toList) 10 [(11, 100), (12, 150)]
    C2_parse_dca_resolution.2.2.2).1

/-- C3: the default DCA ladder has exactly four tiers at `+10%`, `+20%`,
`+30%` and `+50%` of the current price, each with a quarter of the balance;
in particular balance 400 at price 10 gives `[(11,100),(12,100),(13,100),
(15,100)]`. -/
theorem C3_default_dca :
    (∀ cp b : ℚ, generate_default_dca cp b =
      [(cp * (110 / 100), b / 4), (cp * (120 / 100), b / 4),
       (cp * (130 / 100), b / 4), (cp * (150 / 100), b / 4)]) ∧
    generate_default_dca 10 400 = [(11, 100), (12, 100), (13, 100), (15, 100)] :=
  ⟨fun _ _ => rfl, by norm_num [generate_default_dca]⟩

/-- C4: `parse_dca_config` exits fatally exactly when some (non-skipped) pair
is rejected — malformed `PRICE:AMOUNT` syntax, an unparseable number, a
non-positive amount, or a non-positive absolute price — and succeeds with a
threshold list on every other nonempty spec string. -/
theorem C4_parse_dca_failure (s : PyStr) (cp : ℚ) :
    (parse_dca_config s cp = DcaResult.fatal ↔
      ∃ p ∈ pySplit ',' s, ¬(pyStrip p = [] ∨ pairAccepted (pyStrip p))) ∧
    (s ≠ [] → (∀ p ∈ pySplit ',' s, pyStrip p = [] ∨ pairAccepted (pyStrip p)) →
      ∃ l, parse_dca_config s cp = DcaResult.thresholds l) :=
  ⟨parse_fatal_iff s cp, fun hs hall => parse_success s cp hs hall⟩

/-- Witness for C4: `"0.30:-5"` (non-positive amount) is fatal; `"3:5"`
succeeds. -/
theorem C4_parse_dca_failure_witness :
    parse_dca_config ("0.30:-5".toList) 10 = DcaResult.fatal ∧
    ∃ l, parse_dca_config ("3:5".toList) 10 = DcaResult.thresholds l := by
  constructor
  · refine (C4_parse_dca_failure ("0.30:-5".toList) 10).1.mpr
      ⟨"0.30:-5".toList, by decide, ?_⟩
    rintro (h | ⟨p, a, hsp, ⟨amt, hamt, hpos⟩, -⟩)
    · exact absurd h (by decide)
    · have hq : pySplit ':' (pyStrip ("0.30:-5".toList)) = ["0.30".toList, "-5".toList] := by
        decide
      rw [hq] at hsp
      simp only [List.cons.injEq, and_true] at hsp
      obtain ⟨hp, ha⟩ := hsp
      subst hp; subst ha
      have hnum : parseNum? (pyStrip ("-5".toList)) = some ⟨-1, ['5'], [], 0⟩ := by decide
      rw [parseFloat?, hnum, Option.map_some'] at hamt
      have hval : NumParts.val ⟨-1, ['5'], [], 0⟩ = -5 := by
        rw [NumParts.val_eq _ 5 0 0 (by decide) (by decide) (by decide)]; norm_num
      rw [hval] at hamt
      injection hamt with hamt
      rw [← hamt] at hpos
      norm_num at hpos
  · refine (C4_parse_dca_failure ("3:5".toList) 10).2 (by decide) ?_
    intro p hp
    have hq : pySplit ',' ("3:5".toList) = ["3:5".toList] := by decide
    rw [hq] at hp
    rcases List.mem_singleton.mp hp with rfl
    right
    refine ⟨"3".toList, "5".toList, by decide, ⟨5, ?_, by norm_num⟩, ?_⟩
    · have hnum : parseNum? (pyStrip ("5".toList)) = some ⟨1, ['5'], [], 0⟩ := by decide
      rw [parseFloat?, hnum, Option.map_some']
      rw [NumParts.val_eq _ 5 0 0 (by decide) (by decide) (by decide)]
      norm_num
    · rw [if_neg (by decide)]
      refine ⟨3, ?_, by norm_num⟩
      have hnum : parseNum? (pyStrip ("3".toList)) = some ⟨1, ['3'], [], 0⟩ := by decide
      rw [parseFloat?, hnum, Option.map_some']
      rw [NumParts.val_eq _ 3 0 0 (by decide) (by decide) (by decide)]
      norm_num

/-- C5: the engine-side `hit` flag (modelled from the spec, the engine living
in the missing `trail.py`) is monotone — once set it stays set for the rest of
the run, so it rises `false→true` at most once; and the UI-side
`mark_threshold_hit` changes at most the first threshold within `0.01` of the
given price, only ever setting its flag to `true`, and changes nothing when no
threshold is that close. -/
theorem C5_hit_flag_discipline :
    (∀ (tl : List Threshold) (ops : List Nat) (k t t' : Nat), t ≤ t' →
      hitAt tl ops k t = true → hitAt tl ops k t' = true) ∧
    (∀ (tl : List Threshold) (ops : List Nat) (k t1 t2 : Nat), t1 < t2 →
      hitAt tl ops k t1 = false ∧ hitAt tl ops k (t1 + 1) = true →
      ¬(hitAt tl ops k t2 = false ∧ hitAt tl ops k (t2 + 1) = true)) ∧
    (∀ (tl : List (ℚ × ℚ × Bool)) (tp : ℚ),
      (∀ q ∈ tl, ¬(|q.1 - tp| < 1 / 100)) → mark_threshold_hit tl tp = tl) ∧
    (∀ (pre : List (ℚ × ℚ × Bool)) (p amt : ℚ) (b : Bool) (post : List (ℚ × ℚ × Bool))
        (tp : ℚ),
      (∀ q ∈ pre, ¬(|q.1 - tp| < 1 / 100)) → |p - tp| < 1 / 100 →
      mark_threshold_hit (pre ++ (p, amt, b) :: post) tp = pre ++ (p, amt, true) :: post) := by
  refine ⟨fun tl ops k t t' h hh => hitAt_mono tl ops k h hh, ?_,
    mark_threshold_hit_no_match, mark_threshold_hit_first_match⟩
  rintro tl ops k t1 t2 hlt ⟨h1f, h1t⟩ ⟨h2f, h2t⟩
  have hmono : hitAt tl ops k t2 = true := hitAt_mono tl ops k (Nat.succ_le_of_lt hlt) h1t
  rw [h2f] at hmono
  exact Bool.noConfusion hmono

/-- Witness for C5: a one-threshold run where the flag is set by the first
mark operation, and a concrete `mark_threshold_hit` call. -/
theorem C5_hit_flag_discipline_witness :
    hitAt [⟨1, 2, false⟩] [0] 0 2 = true ∧
    mark_threshold_hit [((1 : ℚ), (2 : ℚ), false)] 1 = [(1, 2, true)] :=
  ⟨C5_hit_flag_discipline.1 [⟨1, 2, false⟩] [0] 0 1 2 (by decide) (by decide),
   C5_hit_flag_discipline.2.2.2 [] 1 2 false [] 1 (by simp) (by norm_num)⟩

/-- C6 counterexample: the claim asserts that in percentage mode a distance
value `≥ 1` is only ever accepted after an explicit override confirmation, but
the setup screen's stop-distance validation (`validate_and_start`, one of the
two code paths the claim covers) accepts the percentage value `5` although
`5 ≥ 1` and that path has no confirmation step at all — its only check is
positivity. -/
theorem C6_counterexample :
    setup_validate_stop ("5".toList) = some 5 ∧ (1 : ℚ) ≤ 5 :=
  ⟨setup_validate_five, by norm_num⟩

/-- C6 (amended): every accepted stop distance is positive on both
configuration paths; the `≥ 1` percentage override confirmation holds on the
interactive CLI prompt path (`prompt_stop_distance`), while the TUI setup
screen checks positivity only. -/
theorem C6_stop_distance (inputs : List StopPromptInput) (m : StopMode) (v : ℚ)
    (s : PyStr) (w : ℚ) :
    (prompt_stop_distance inputs = some (m, v) →
      0 < v ∧ ∃ i ∈ inputs, prompt_stop_distance_iter i = some (m, v) ∧
        (m = StopMode.percentage → 1 ≤ v → pyLower (pyStrip i.confirm) = ['y'])) ∧
    (setup_validate_stop s = some w → 0 < w) :=
  ⟨fun h => prompt_accept h, fun h => setup_validate_pos h⟩

/-- Witness for C6: a percentage run accepted at value `0.05`, and the setup
screen accepting `"5"`. -/
theorem C6_stop_distance_witness :
    (0 : ℚ) < 1 / 20 ∧ (0 : ℚ) < 5 := by
  have hnum : parseNum? (pyStrip ("0.05".toList)) = some ⟨1, ['0'], ['0', '5'], 0⟩ := by decide
  have hval : NumParts.val ⟨1, ['0'], ['0', '5'], 0⟩ = 1 / 20 := by
    rw [NumParts.val_eq _ 0 5 2 (by decide) (by decide) (by decide)]; norm_num
  have hiter : prompt_stop_distance_iter ⟨"1".toList, "0.05".toList, []⟩ =
      some (StopMode.percentage, 1 / 20) := by
    simp only [prompt_stop_distance_iter]
    rw [if_neg (show ¬(pyStrip ("1".toList) ≠ ['1'] ∧ pyStrip ("1".toList) ≠ ['2']) by decide),
      if_pos (show pyStrip ("1".toList) = ['1'] by decide),
      parseFloat?, hnum, Option.map_some', hval]
    show (if (1 : ℚ) / 20 ≤ 0 then none
        else if StopMode.percentage = StopMode.percentage ∧ 1 ≤ (1 : ℚ) / 20 ∧
            pyLower (pyStrip ([] : PyStr)) ≠ ['y'] then none
        else some (StopMode.percentage, (1 : ℚ) / 20)) =
      some (StopMode.percentage, 1 / 20)
    rw [if_neg (show ¬((1 : ℚ) / 20 ≤ 0) by norm_num),
      if_neg (show ¬(StopMode.percentage = StopMode.percentage ∧ 1 ≤ (1 : ℚ) / 20 ∧
        pyLower (pyStrip ([] : PyStr)) ≠ ['y']) by norm_num)]
  have hrun : prompt_stop_distance [⟨"1".toList, "0.05".toList, []⟩] =
      some (StopMode.percentage, 1 / 20) := by
    rw [prompt_stop_distance, hiter]
  exact ⟨((C6_stop_distance [⟨"1".toList, "0.05".toList, []⟩] StopMode.percentage (1 / 20)
      ("5".toList) 5).1 hrun).1,
    (C6_stop_distance [] StopMode.absolute 0 ("5".toList) 5).2 setup_validate_five⟩

/-- C7: given the unique `instance_locks` row matching `(symbol, trade_type)`,
the administrative reset sets `running := 0` and `updated_at := now` on that
row when `running = 1`, leaving its `pid` and `started_at` and every other row
unchanged; when the row's `running ≠ 1`, or when no row matches, it changes
nothing. -/
theorem C7_reset_lock_frame :
    (∀ (pre post : List LockRow) (r : LockRow) (symbol trade_type now : String),
      (∀ q ∈ pre, lockMatches symbol trade_type q = false) →
      (∀ q ∈ post, lockMatches symbol trade_type q = false) →
      lockMatches symbol trade_type r = true →
      (r.running = 1 →
        reset_instance_lock (pre ++ r :: post) symbol trade_type now =
          pre ++ { r with running := 0, updated_at := some now } :: post) ∧
      (r.running ≠ 1 →
        reset_instance_lock (pre ++ r :: post) symbol trade_type now = pre ++ r :: post)) ∧
    (∀ (db : List LockRow) (symbol trade_type now : String),
      (∀ q ∈ db, lockMatches symbol trade_type q = false) →
      reset_instance_lock db symbol trade_type now = db) := by
  refine ⟨fun pre post r symbol trade_type now hpre hpost hr =>
    ⟨fun hrun => ?_, fun hrun => ?_⟩, reset_lock_no_match⟩
  · rw [reset_lock_frame pre post r symbol trade_type now hpre hpost hr, if_pos hrun]
  · rw [reset_lock_frame pre post r symbol trade_type now hpre hpost hr, if_neg hrun]

/-- Witness for C7: a two-row table where only the matching running row is
rewritten. -/
theorem C7_reset_lock_frame_witness :
    reset_instance_lock
        [⟨"DOGE/USD", "sell", 1, some 7, some "t0", some "t1"⟩,
         ⟨"BTC/USD", "sell", 1, some 8, some "t2", some "t3"⟩] "DOGE/USD" "sell" "t9" =
      [⟨"DOGE/USD", "sell", 0, some 7, some "t0", some "t9"⟩,
       ⟨"BTC/USD", "sell", 1, some 8, some "t2", some "t3"⟩] :=
  (C7_reset_lock_frame.1 [] [⟨"BTC/USD", "sell", 1, some 8, some "t2", some "t3"⟩]
    ⟨"DOGE/USD", "sell", 1, some 7, some "t0", some "t1"⟩ "DOGE/USD" "sell" "t9"
    (by simp) (by decide) (by decide)).1 (by decide)

/-- C8: the bootstrap script creates exactly the six tables
`thresholds`, `hopper`, `available_funds`, `stoploss`, `win_tracker` and
`instance_locks`, with exactly the claimed columns, with primary key `id` on
the first five and the composite `(symbol, trade_type)` on `instance_locks`,
and it inserts no rows. -/
theorem C8_schema_bootstrap :
    (create_db_script.filterMap SqlStatement.tableDef?).map
        (fun t => (t.tname, t.columns.map ColumnDef.cname)) =
      [("thresholds", ["id", "symbol", "price", "amount", "threshold_hit", "sold_at"]),
       ("hopper", ["id", "symbol", "amount"]),
       ("available_funds", ["id", "symbol", "account_balance", "coin_hopper"]),
       ("stoploss", ["id", "symbol", "stop_value"]),
       ("win_tracker",
        ["id", "symbol", "price_at_deposit", "price_at_buy", "buy_count", "win_count"]),
       ("instance_locks",
        ["symbol", "trade_type", "running", "pid", "started_at", "updated_at"])] ∧
    (create_db_script.filterMap SqlStatement.tableDef?).map TableDef.primaryKey =
      [["id"], ["id"], ["id"], ["id"], ["id"], ["symbol", "trade_type"]] ∧
    create_db_script.filter SqlStatement.isInsert = [] :=
  ⟨rfl, rfl, rfl⟩

/-- C9: the average fill price reported by `get_order` is
`filled_value / filled_size` whenever `filled_size > 0`, and exactly `0` when
`filled_size = 0` — the division is never evaluated at a zero
denominator. -/
theorem C9_get_order_price (o : RawOrder) :
    (0 < o.filled_size.getD 0 →
      (get_order o).price = o.filled_value.getD 0 / o.filled_size.getD 0) ∧
    (o.filled_size.getD 0 = 0 → (get_order o).price = 0) := by
  have hp : (get_order o).price =
      if o.filled_size.getD 0 > 0 then o.filled_value.getD 0 / o.filled_size.getD 0
      else 0 := rfl
  constructor
  · intro h
    rw [hp, if_pos h]
  · intro h
    rw [hp, if_neg (by rw [h]; exact lt_irrefl 0)]

/-- Witness for C9: a filled order of size 2 and value 10 reports price 5; an
unfilled order reports price 0. -/
theorem C9_get_order_price_witness :
    (get_order ⟨some "a1", some "FILLED", some 2, some 10, some 1,
      some ("BTC-USD".toList)⟩).price = 5 ∧
    (get_order ⟨some "a2", some "OPEN", some 0, some 0, some 0,
      some ("BTC-USD".toList)⟩).price = 0 := by
  constructor
  · rw [(C9_get_order_price _).1 (by decide)]
    norm_num [Option.getD]
  · rw [(C9_get_order_price _).2 (by decide)]

/-- C10: `get_balance` returns the available balance of the first account in
response order whose currency matches the requested coin (an absent balance
field reading as 0), and exactly 0.0 when no account matches. -/
theorem C10_get_balance (accounts : List Account) (coin : String) :
    (∀ a, accounts.find? (fun x => x.currency == some coin) = some a →
      get_balance accounts coin = a.balance_value.getD 0) ∧
    (accounts.find? (fun x => x.currency == some coin) = none →
      get_balance accounts coin = 0) := by
  induction accounts with
  | nil => exact ⟨fun a h => by simp [List.find?] at h, fun _ => rfl⟩
  | cons b rest ih =>
    constructor
    · intro a hfind
      by_cases hb : b.currency = some coin
      · rw [List.find?_cons_of_pos _ (by simp [hb])] at hfind
        injection hfind with h
        subst h
        rw [get_balance, if_pos hb]
      · rw [List.find?_cons_of_neg _ (by simp [hb])] at hfind
        rw [get_balance, if_neg hb]
        exact ih.1 a hfind
    · intro hfind
      by_cases hb : b.currency = some coin
      · rw [List.find?_cons_of_pos _ (by simp [hb])] at hfind
        exact Option.noConfusion hfind
      · rw [List.find?_cons_of_neg _ (by simp [hb])] at hfind
        rw [get_balance, if_neg hb]
        exact ih.2 hfind

/-- Witness for C10: the first matching of two accounts is returned; an
unmatched coin yields 0. -/
theorem C10_get_balance_witness :
    get_balance [⟨some "USD", some 50⟩, ⟨some "BTC", some 2⟩] "BTC" = 2 ∧
    get_balance [⟨some "USD", some 50⟩] "BTC" = 0 := by
  constructor
  · rw [(C10_get_balance [⟨some "USD", some 50⟩, ⟨some "BTC", some 2⟩] "BTC").1
      ⟨some "BTC", some 2⟩ (by decide)]
    rfl
  · exact (C10_get_balance [⟨some "USD", some 50⟩] "BTC").2 (by decide)
